import Mathlib

/-!
Verification development for the `appx` service container: a shallow
embedding of its lifecycle coordinator, fatal-error reporter, security
gate, certificate manager, HTTP service configuration, health handler
and configuration redactor, with theorems settling the specified
behavioural claims.
-/

set_option maxRecDepth 4000

namespace Appx

/-! ## String helpers

Substring containment on character lists, used to state "the error message
contains ..." properties (`strings.Contains` / `%w` wrapping in Go). -/

/-- Predicate `charsStart hay needle` is true when `needle` is an initial segment of `hay`. -/
def charsStart : List Char → List Char → Bool
  | _, [] => true
  | [], _ :: _ => false
  | h :: hs, n :: ns => h == n && charsStart hs ns

/-- Predicate `charsContain hay needle` is true when `needle` occurs contiguously in `hay`. -/
def charsContain : List Char → List Char → Bool
  | [], needle => charsStart [] needle
  | h :: t, needle => charsStart (h :: t) needle || charsContain t needle

/-- String containment, as Go's `strings.Contains`. -/
def strContain (hay needle : String) : Bool :=
  charsContain hay.toList needle.toList

/-! ## Security gate (`security.Manager.Run`)

Embedded from `src/security/security.go`.  Each registered checker either
returns a `Result` or panics; the deferred `recover` in `Manager.Run`
counts a panic as a fatal.  The mutex-guarded counters commute, so the
concurrent loop is embedded as a fold over the list of check outcomes. -/

inductive Severity where
  | info
  | warn
  | fatal
  deriving DecidableEq, Repr

/-- Outcome of one security checker's `Check` call: either a panic caught by
the deferred `recover`, or a `Result` with its `Passed` flag and `Severity`. -/
inductive CheckOutcome where
  | panicked
  | res (passed : Bool) (sev : Severity)
  deriving DecidableEq, Repr

/-- The counter loop of `security.Manager.Run`: returns `(fatalCount, warnCount)`.
A panic increments `fatalCount`; a passed result counts nothing; a failed
result increments the counter matching its severity (`Info` counts nothing). -/
def runChecks : List CheckOutcome → Nat × Nat
  | [] => (0, 0)
  | c :: rest =>
    let (f, w) := runChecks rest
    match c with
    | .panicked => (f + 1, w)
    | .res true _ => (f, w)
    | .res false .info => (f, w)
    | .res false .warn => (f, w + 1)
    | .res false .fatal => (f + 1, w)

/-- Function `security.Manager.Run`: after all checks complete, returns
`security check failed: N fatal errors found` when `fatalCount > 0`,
otherwise success (`none`). -/
def managerRun (outcomes : List CheckOutcome) : Option String :=
  let fatalCount := (runChecks outcomes).1
  if fatalCount > 0 then
    some ("security check failed: " ++ toString fatalCount ++ " fatal errors found")
  else
    none

/-- A check outcome that contributes to the fatal count: a panic, or a failed
result at `Fatal` severity. -/
def isFatalOutcome : CheckOutcome → Bool
  | .panicked => true
  | .res false .fatal => true
  | _ => false

theorem runChecks_fst_eq_countP (l : List CheckOutcome) :
    (runChecks l).1 = l.countP isFatalOutcome := by
  induction l with
  | nil => rfl
  | cons c rest ih =>
    cases c with
    | panicked => simp [runChecks, isFatalOutcome, List.countP_cons, ih]
    | res passed sev =>
      cases passed <;> cases sev <;>
        simp [runChecks, isFatalOutcome, List.countP_cons, ih]

/-! ## Certificate manager (`cert.Manager`)

Embedded from `src/unnamed/part_002` (`Manager.GetCertificate`) and
`src/unnamed/part_001` (`Manager.watchFileChanges`, `checkExpiration`). -/

/-- A loaded manual certificate; `notAfter` is the parsed leaf's expiry. -/
structure Cert where
  notAfter : Nat
  deriving DecidableEq, Repr

/-- The manager state read on the handshake hot path: the `useACME` atomic
flag, whether `acmeManager` is non-nil, and the atomic manual-cert slot. -/
structure CertState where
  useACME : Bool
  hasACME : Bool
  manualCert : Option Cert
  deriving DecidableEq, Repr

/-- Result of `GetCertificate`: delegation to the ACME provider, the manual
certificate returned unchanged, or an error message. -/
inductive GetCertResult where
  | acme (serverName : String)
  | manual (c : Cert)
  | err (msg : String)
  deriving DecidableEq, Repr

/-- Method `cert.Manager.GetCertificate`: prefer ACME when `useACME` is set and the
provider exists (when set with no provider, log a warning and fall through);
otherwise atomically load the manual slot; when that is empty fall back to
ACME if available, else fail with `no certificate available for <SNI>`. -/
def getCertificate (st : CertState) (serverName : String) : GetCertResult :=
  if st.useACME && st.hasACME then
    .acme serverName
  else
    match st.manualCert with
    | none =>
      if st.hasACME then .acme serverName
      else .err ("cert manager: no certificate available for " ++ serverName)
    | some c => .manual c

/-- The hot-path decision as the specification words it: delegate when
use-ACME and a provider exist; otherwise use the manual slot; when the slot
is empty delegate if a provider exists, else fail naming the server. -/
def getCertificateSpec (st : CertState) (serverName : String) : GetCertResult :=
  if st.useACME ∧ st.hasACME then .acme serverName
  else match st.manualCert with
    | some c => .manual c
    | none =>
      if st.hasACME then .acme serverName
      else .err ("cert manager: no certificate available for " ++ serverName)

/-! ### Background watcher

`watchFileChanges` keeps a local `lastMod`, initialised from an initial
`os.Stat` and updated **only after a successful reload**.  Each tick stats
the file; on stat failure it may flip to ACME; otherwise it reloads when
`useACME` is set or the mtime moved, except that a recovery-mode tick whose
mtime equals `lastMod` is skipped.  After the reload logic, in manual mode
the leaf expiry is checked against the fallback threshold. -/

/-- Watcher state across ticks: the manager fields it reads and writes plus
the loop-local `lastMod`. `acmeEnabled` and `thresholdDays` are config. -/
structure WatchState where
  useACME : Bool
  acmeEnabled : Bool
  lastMod : Nat
  manualCert : Option Cert
  thresholdDays : Nat
  deriving DecidableEq, Repr

/-- One tick's observation of the filesystem clock: either `os.Stat` failed,
or the file has modification time `mtime` and, were `reloadFileCert` called
on this tick, it would yield `load` (`none` = load error, `some c` = the
certificate it would store). `now` is the current time for the expiry check. -/
structure TickObs where
  statOk : Bool
  mtime : Nat
  load : Option Cert
  now : Nat
  deriving DecidableEq, Repr

/-- The action a tick took, for stating trace properties. -/
inductive WatchAction where
  | statFailed
  | switchToACME
  | skip
  | reloadOk
  | reloadFail
  | noReload
  deriving DecidableEq, Repr

/-- Method `checkExpiration`: in manual mode, if the loaded leaf expires within the
threshold and ACME is enabled, flip `useACME` on. -/
def checkExpiration (st : WatchState) (now : Nat) : WatchState :=
  match st.manualCert with
  | none => st
  | some c =>
    if (c.notAfter : Int) - (now : Int) < (st.thresholdDays : Int) * 24 * 3600 &&
        st.acmeEnabled && !st.useACME then
      { st with useACME := true }
    else st

/-- One iteration of the `watchFileChanges` select loop on a ticker tick.
The branches returning without an expiry check mirror the source's
`continue` statements. -/
def watchTick (st : WatchState) (o : TickObs) : WatchState × WatchAction :=
  if !o.statOk then
    if st.acmeEnabled && !st.useACME then
      ({ st with useACME := true }, .switchToACME)
    else (st, .statFailed)
  else if st.useACME || o.mtime != st.lastMod then
    if st.useACME && o.mtime == st.lastMod then
      (st, .skip)
    else
      match o.load with
      | none =>
        let st' := st
        (if !st'.useACME then checkExpiration st' o.now else st', .reloadFail)
      | some c =>
        let st' := { st with lastMod := o.mtime, manualCert := some c, useACME := false }
        (if !st'.useACME then checkExpiration st' o.now else st', .reloadOk)
  else
    (if !st.useACME then checkExpiration st o.now else st, .noReload)

/-! ## Container lifecycle (`Appx.Run`, `src/unnamed/part_004`)

The registered services are embedded by what their `Start` and `Stop`
calls return; `Run` is embedded as a function producing the trace of
lifecycle calls (with the context each `Stop` receives) together with its
return value.  The signal/fatal select is embedded by a `Cause` input,
used only when every start succeeded. -/

/-- A registered service, by its name and what its lifecycle calls return
(`none` = nil error). -/
structure SvcSpec where
  name : String
  startErr : Option String
  stopErr : Option String
  deriving DecidableEq, Repr

/-- The context handed to a lifecycle call: the cancellable root context,
the rollback context (`context.WithTimeout(Background, 5s)`), or the
shutdown context (`context.WithTimeout(Background, shutdownTimeout)`).
Deadlines are in seconds. -/
inductive Ctx where
  | root
  | rollback (secs : Nat)
  | shutdown (secs : Nat)
  deriving DecidableEq, Repr

/-- Observable lifecycle events of one `Run` invocation, indexed by
registration position. -/
inductive Ev where
  | startCall (i : Nat)
  | stopCall (i : Nat) (c : Ctx)
  | logStopErr (i : Nat) (msg : String)
  | enterWait
  | hookCall (j : Nat) (c : Ctx)
  | logHookErr (j : Nat) (msg : String)
  deriving DecidableEq, Repr

/-- Which of the two select arms fired once all services started: an OS
signal or a fatal-error report carrying its error. -/
inductive Cause where
  | signal
  | fatal (e : String)
  deriving DecidableEq, Repr

/-- The startup loop of `Appx.Run`: start each service in order at absolute
index `i`, accumulating `started` (indices in start order).  On the first
start error, roll back the started services in reverse under the 5-second
rollback context (stop errors discarded) and fail with
`service <name> start failed: <err>`; otherwise yield the started indices. -/
def startLoop : List SvcSpec → Nat → List Nat → List Ev × (List Nat ⊕ String)
  | [], _, started => ([], Sum.inl started)
  | svc :: rest, i, started =>
    match svc.startErr with
    | some e =>
      (Ev.startCall i :: started.reverse.map (fun j => Ev.stopCall j (Ctx.rollback 5)),
       Sum.inr ("service " ++ svc.name ++ " start failed: " ++ e))
    | none =>
      let (evs, r) := startLoop rest (i + 1) (started ++ [i])
      (Ev.startCall i :: evs, r)

/-- Teardown step 4.1: stop every service in reverse registration order
under the shutdown context; a stop error is logged and the loop continues. -/
def stopPhase (svcs : List SvcSpec) (t : Nat) : List Ev :=
  (List.range svcs.length).reverse.flatMap fun i =>
    Ev.stopCall i (Ctx.shutdown t) ::
      (match svcs[i]? with
       | some svc =>
         match svc.stopErr with
         | some m => [Ev.logStopErr i m]
         | none => []
       | none => [])

/-- Teardown step 4.2: invoke every shutdown hook in order under the same
shutdown context; a hook error is logged and the loop continues. -/
def hookPhase (hooks : List (Option String)) (t : Nat) : List Ev :=
  (List.range hooks.length).flatMap fun j =>
    Ev.hookCall j (Ctx.shutdown t) ::
      (match hooks[j]? with
       | some (some m) => [Ev.logHookErr j m]
       | _ => [])

/-- Function `Appx.Run` (post security gate): run the startup loop; on a start error
return it without waiting or tearing down; otherwise block on the
signal/fatal select (`Ev.enterWait`), then stop services in reverse, run the
hooks, and return the captured fatal error (`none` on a signal). -/
def appxRun (svcs : List SvcSpec) (hooks : List (Option String)) (t : Nat)
    (cause : Cause) : List Ev × Option String :=
  match startLoop svcs 0 [] with
  | (evs, Sum.inr msg) => (evs, some msg)
  | (evs, Sum.inl _) =>
    (evs ++ [Ev.enterWait] ++ stopPhase svcs t ++ hookPhase hooks t,
     match cause with
     | .signal => none
     | .fatal e => some e)

/-- The shutdown timeout `Appx.New` installs before options run (seconds). -/
def defaultShutdownTimeout : Nat := 30

/-! ## Fatal-error reporter (`Appx.notifyFatalError`)

The capacity-1 channel is embedded as an `Option String` slot; a
non-blocking send on a full channel takes the `default` arm.  The reporter
is a total function — it never blocks. -/

/-- The state `notifyFatalError` reads: the `inShutdown` atomic flag and the
content of the capacity-1 `fatalChan`. -/
structure FatalState where
  inShutdown : Bool
  fatalChan : Option String
  deriving DecidableEq, Repr

/-- What one reporter call did, mirroring its three exits. -/
inductive NotifyResult where
  | sent
  | loggedInShutdown
  | loggedChanFull
  deriving DecidableEq, Repr

/-- Method `Appx.notifyFatalError`: during shutdown, log and return; otherwise
non-blocking send — fill the empty channel, or log a secondary error when
it is already full. -/
def notifyFatalError (st : FatalState) (e : String) : FatalState × NotifyResult :=
  if st.inShutdown then
    (st, .loggedInShutdown)
  else
    match st.fatalChan with
    | none => ({ st with fatalChan := some e }, .sent)
    | some _ => (st, .loggedChanFull)

/-- An event affecting the fatal-report state: a reporter call from some
service goroutine, or `Run` setting `inShutdown` before teardown. -/
inductive FatalEv where
  | notify (e : String)
  | setShutdown
  deriving DecidableEq, Repr

def fatalStep (st : FatalState) : FatalEv → FatalState
  | .notify e => (notifyFatalError st e).1
  | .setShutdown => { st with inShutdown := true }

/-- Fold a sequence of reporter calls and shutdown flips over the state. -/
def fatalRun (st : FatalState) : List FatalEv → FatalState
  | [] => st
  | ev :: rest => fatalRun (fatalStep st ev) rest

/-! ## HTTP service (`src/service_http.go`)

`NewHttpService` fixes the defaults; `Start` binds the TCP listener, then
(HTTP/3 only) the UDP socket, builds the chains, attaches TLS, and
configures the `http.Server`.  Durations are in seconds, sizes in bytes. -/

/-- The option fields of `HttpService` that decide `Start`'s control flow
and the server timeouts.  `NewHttpService` leaves `certMgr`/`enableHttp3`
unset and fixes `readTimeout` to 5 s. -/
structure HttpServiceOpts where
  readTimeout : Int
  hasCertMgr : Bool
  enableHttp3 : Bool
  deriving DecidableEq, Repr

/-- The defaults installed by `NewHttpService`: `readTimeout` 5 s
(anti-Slowloris), no TLS, no HTTP/3.  No exported option mutates
`readTimeout`. -/
def newHttpService : HttpServiceOpts :=
  { readTimeout := 5, hasCertMgr := false, enableHttp3 := false }

/-- The timeout/limit fields `Start` sets on the `http.Server`. -/
structure ServerConfig where
  maxHeaderBytes : Nat
  readHeaderTimeout : Int
  readTimeout : Int
  writeTimeout : Int
  idleTimeout : Int
  deriving DecidableEq, Repr

/-- Step 6 of `HttpService.Start`: a non-positive `readTimeout` falls back
to 30 s, then the server gets 1 MiB header cap, that header-read timeout,
unbounded body read/write, and a 60 s idle timeout. -/
def buildServerConfig (readTimeout : Int) : ServerConfig :=
  let rt := if readTimeout ≤ 0 then 30 else readTimeout
  { maxHeaderBytes := 1 <<< 20
    readHeaderTimeout := rt
    readTimeout := 0
    writeTimeout := 0
    idleTimeout := 60 }

/-- What `HttpService.Start` did on the bind/TLS path: which runtime fields
were assigned, which sockets were explicitly closed before returning, and
the returned error, if any. -/
structure StartOutcome where
  listenerSet : Bool
  udpConnSet : Bool
  closedListener : Bool
  closedUdp : Bool
  result : Option String
  deriving DecidableEq, Repr

/-- The bind and TLS-gating phase of `HttpService.Start` (steps 1, 2 and the
certificate block).  `tcpOk`/`udpOk` say whether `netx.ListenTCP` /
`netx.ListenUDP` succeed, with the error message they would return.
On UDP failure the TCP listener is closed; the `HTTP/3 requires TLS` check
runs only after both binds stored their sockets, and closes neither. -/
def httpStart (opts : HttpServiceOpts) (tcpOk : Bool) (tcpErr : String)
    (udpOk : Bool) (udpErr : String) : StartOutcome :=
  if !tcpOk then
    { listenerSet := false, udpConnSet := false, closedListener := false,
      closedUdp := false, result := some tcpErr }
  else if opts.enableHttp3 && !udpOk then
    { listenerSet := true, udpConnSet := false, closedListener := true,
      closedUdp := false, result := some udpErr }
  else if !opts.hasCertMgr && opts.enableHttp3 then
    { listenerSet := true, udpConnSet := true, closedListener := false,
      closedUdp := false, result := some "HTTP/3 requires TLS, please call WithTLS()" }
  else
    { listenerSet := true, udpConnSet := opts.enableHttp3, closedListener := false,
      closedUdp := false, result := none }

/-! ## Health handler (`Appx.HealthHandler`)

Each checker's `Check` runs under a 2-second per-check context inside the
3-second request context; its outcome (`none` = nil, `some msg` = the
error, deadline errors included) is the embedding's input.  `errgroup.Wait`
returns the first error, embedded here as the first failing checker in
registration order. -/

/-- A registered health checker by name and the outcome of its bounded
`Check` call. -/
structure HChecker where
  name : String
  outcome : Option String
  deriving DecidableEq, Repr

/-- The `errgroup` aggregation: `none` when every checker returned nil,
otherwise the first failure wrapped as `[<name>] <err>`. -/
def healthAggregate : List HChecker → Option String
  | [] => none
  | c :: rest =>
    match c.outcome with
    | some msg => some ("[" ++ c.name ++ "] " ++ msg)
    | none => healthAggregate rest

/-- The HTTP response `(statusCode, body)` written by the handler:
200 `OK` on success, else `http.Error` with status 503 and body
`Health check failed: <err>` plus a trailing newline. -/
def healthResponse (checkers : List HChecker) : Nat × String :=
  match healthAggregate checkers with
  | none => (200, "OK")
  | some e => (503, "Health check failed: " ++ e ++ "\n")

/-! ## Configuration redactor (`src/printer.go`)

`maskSensitiveData` walks an arbitrary Go value with reflection.  The
reflected value shapes it distinguishes are embedded as a mutual inductive:
nil interfaces, strings, other scalar kinds (the `default` branch), nil and
non-nil pointers, structs (field lists carrying the Go name, the
`mapstructure` and `json` tags and the exported flag), maps (entries keyed
by their `fmt.Sprint` rendering) and slices/arrays. -/

mutual
inductive GoVal where
  | vnil
  | str (s : String)
  | prim (tag : String)
  | ptrNil
  | ptr (v : GoVal)
  | stru (fs : FieldList)
  | gomap (es : EntryList)
  | arr (es : ValList)
inductive FieldList where
  | nil
  | cons (goName msTag jsTag : String) (exported : Bool) (v : GoVal) (rest : FieldList)
inductive EntryList where
  | nil
  | cons (k : String) (v : GoVal) (rest : EntryList)
inductive ValList where
  | nil
  | cons (v : GoVal) (rest : ValList)
end

/-- Go's `strings.Split(tag, ",")[0]`: the characters before the first comma. -/
def beforeComma : List Char → List Char
  | [] => []
  | c :: rest => if c == ',' then [] else c :: beforeComma rest

/-- The key under which a struct field is emitted: the `mapstructure` tag
when set and not `-`, else the `json` tag likewise, else the Go name. -/
def fieldKey (goName msTag jsTag : String) : String :=
  if msTag != "" && msTag != "-" then ⟨beforeComma msTag.toList⟩
  else if jsTag != "" && jsTag != "-" then ⟨beforeComma jsTag.toList⟩
  else goName

/-- Predicate `isSensitive`: the lower-cased name contains one of the keywords. -/
def isSensitive (name : String) : Bool :=
  let lowered : List Char := name.toList.map Char.toLower
  ["password", "secret", "token", "key", "auth", "credential", "pwd"].any
    fun kw => charsContain lowered kw.toList

mutual
/-- Function `maskSensitiveData`: nil stays nil; a nil pointer becomes nil and a
non-nil pointer is dereferenced before the kind switch (so a pointee that is
neither struct, map, slice nor array falls to the `default` branch, which
returns the original pointer value); structs become maps keyed by
`fieldKey` with unexported fields dropped; sensitive keys get `"******"`;
other values recurse; scalars return unchanged. -/
def mask : GoVal → GoVal
  | .vnil => .vnil
  | .str s => .str s
  | .prim t => .prim t
  | .ptrNil => .vnil
  | .ptr v =>
    match v with
    | .stru fs => .gomap (maskFields fs)
    | .gomap es => .gomap (maskEntries es)
    | .arr es => .arr (maskElems es)
    | _ => .ptr v
  | .stru fs => .gomap (maskFields fs)
  | .gomap es => .gomap (maskEntries es)
  | .arr es => .arr (maskElems es)

/-- The struct branch: skip unexported fields; emit `"******"` for a
sensitive key, else recurse into the field value. -/
def maskFields : FieldList → EntryList
  | .nil => .nil
  | .cons goName msTag jsTag exported v rest =>
    if !exported then maskFields rest
    else
      let key := fieldKey goName msTag jsTag
      if isSensitive key then .cons key (.str "******") (maskFields rest)
      else .cons key (mask v) (maskFields rest)

/-- The map branch: emit `"******"` for a sensitive key, else recurse. -/
def maskEntries : EntryList → EntryList
  | .nil => .nil
  | .cons k v rest =>
    if isSensitive k then .cons k (.str "******") (maskEntries rest)
    else .cons k (mask v) (maskEntries rest)

/-- The slice/array branch: recurse elementwise. -/
def maskElems : ValList → ValList
  | .nil => .nil
  | .cons v rest => .cons (mask v) (maskElems rest)
end

/-! ## Idempotence of the redactor -/

mutual
theorem mask_mask : ∀ v : GoVal, mask (mask v) = mask v
  | .vnil => rfl
  | .str _ => rfl
  | .prim _ => rfl
  | .ptrNil => rfl
  | .ptr v => by
    cases v with
    | stru fs => simp [mask, maskFields_maskFields fs]
    | gomap es => simp [mask, maskEntries_maskEntries es]
    | arr es => simp [mask, maskElems_maskElems es]
    | vnil => rfl
    | str _ => rfl
    | prim _ => rfl
    | ptrNil => rfl
    | ptr _ => rfl
  | .stru fs => by simp [mask, maskFields_maskFields fs]
  | .gomap es => by simp [mask, maskEntries_maskEntries es]
  | .arr es => by simp [mask, maskElems_maskElems es]

theorem maskFields_maskFields : ∀ fs : FieldList,
    maskEntries (maskFields fs) = maskFields fs
  | .nil => rfl
  | .cons goName msTag jsTag exported v rest => by
    by_cases hx : exported = true
    · subst hx
      by_cases hs : isSensitive (fieldKey goName msTag jsTag) = true
      · simp [maskFields, maskEntries, hs, maskFields_maskFields rest]
      · simp [maskFields, maskEntries, hs, maskFields_maskFields rest, mask_mask v]
    · have hx' : exported = false := by
        cases exported with
        | true => exact absurd rfl hx
        | false => rfl
      subst hx'
      simp [maskFields, maskFields_maskFields rest]

theorem maskEntries_maskEntries : ∀ es : EntryList,
    maskEntries (maskEntries es) = maskEntries es
  | .nil => rfl
  | .cons k v rest => by
    by_cases hs : isSensitive k = true
    · simp [maskEntries, hs, maskEntries_maskEntries rest]
    · simp [maskEntries, hs, maskEntries_maskEntries rest, mask_mask v]

theorem maskElems_maskElems : ∀ es : ValList,
    maskElems (maskElems es) = maskElems es
  | .nil => rfl
  | .cons v rest => by
    simp [maskElems, maskElems_maskElems rest, mask_mask v]
end

/-! ## Helper lemmas on substring containment -/

theorem charsStart_nil_needle : ∀ l : List Char, charsStart l [] = true := by
  intro l
  cases l <;> rfl

theorem charsStart_append_self : ∀ xs ys : List Char, charsStart (xs ++ ys) xs = true
  | [], ys => charsStart_nil_needle ([] ++ ys)
  | x :: xs, ys => by
    simp [charsStart, charsStart_append_self xs ys]

theorem charsContain_of_start : ∀ hay needle : List Char,
    charsStart hay needle = true → charsContain hay needle = true
  | [], _, h => h
  | _ :: _, _, h => by
    simp [charsContain, h]

theorem charsContain_middle : ∀ pre xs ys : List Char,
    charsContain (pre ++ (xs ++ ys)) xs = true
  | [], xs, ys => charsContain_of_start _ _ (by simpa using charsStart_append_self xs ys)
  | p :: pre, xs, ys => by
    have ih := charsContain_middle pre xs ys
    simp [charsContain, ih]

theorem strContain_middle (pre xs ys : String) :
    strContain (pre ++ (xs ++ ys)) xs = true := by
  have h : (pre ++ (xs ++ ys)).toList = pre.toList ++ (xs.toList ++ ys.toList) := by
    simp [String.toList, String.data_append]
  simp [strContain, h, charsContain_middle]

theorem strContain_suffix (pre xs : String) : strContain (pre ++ xs) xs = true := by
  have h := strContain_middle pre xs ""
  simpa using h

/-! ## Claim theorems -/

/-- C9. The configuration redactor `maskSensitiveData` is idempotent: a
second application to the structure produced by the first (structs lowered
to maps keyed by tag-derived names, sensitive keys replaced by `"******"`,
containers rewritten recursively) changes nothing. -/
theorem mask_idempotent : ∀ v : GoVal, mask (mask v) = mask v :=
  fun v => mask_mask v

/-- C4. `security.Manager.Run` fails exactly when some check panicked or
returned a failed `Fatal` result: the returned error is
`security check failed: N fatal errors found` with `N` the number of such
checks, and a run whose failures are all `Info`/`Warn` returns success. -/
theorem managerRun_fatal_iff (outcomes : List CheckOutcome) :
    ((managerRun outcomes).isSome = true ↔ ∃ c ∈ outcomes, isFatalOutcome c = true) ∧
    (∀ msg, managerRun outcomes = some msg →
      msg = "security check failed: " ++ toString (outcomes.countP isFatalOutcome) ++
        " fatal errors found" ∧ 0 < outcomes.countP isFatalOutcome) := by
  have hrw : managerRun outcomes =
      if 0 < outcomes.countP isFatalOutcome then
        some ("security check failed: " ++ toString (outcomes.countP isFatalOutcome) ++
          " fatal errors found")
      else none := by
    simp [managerRun, runChecks_fst_eq_countP]
  rw [hrw]
  by_cases h : 0 < outcomes.countP isFatalOutcome
  · rw [if_pos h]
    refine ⟨?_, ?_⟩
    · simp only [Option.isSome_some, true_iff]
      exact List.countP_pos_iff.mp h
    · intro msg hmsg
      exact ⟨(Option.some_inj.mp hmsg).symm, h⟩
  · rw [if_neg h]
    refine ⟨?_, ?_⟩
    · refine iff_of_false (by simp) ?_
      exact fun hex => h (List.countP_pos_iff.mpr hex)
    · intro msg hmsg
      exact absurd hmsg (by simp)

/-- C4 witness: a single panicking check makes `Run` fail with
`security check failed: 1 fatal errors found`. -/
theorem managerRun_fatal_iff_witness :
    managerRun [CheckOutcome.panicked] = some "security check failed: 1 fatal errors found" ∧
    managerRun [CheckOutcome.res false Severity.warn, CheckOutcome.res false Severity.info] =
      none := by
  have h := managerRun_fatal_iff [CheckOutcome.panicked]
  constructor
  · rcases h with ⟨hiff, _⟩
    have hsome : (managerRun [CheckOutcome.panicked]).isSome = true :=
      hiff.mpr ⟨CheckOutcome.panicked, by simp, rfl⟩
    rfl
  · rfl

/-- C5. `cert.Manager.GetCertificate` equals the specification's decision
procedure — ACME when `useACME` and a provider exist, else the manual slot
returned unchanged, else ACME fallback, else failure — and every error it
returns contains `no certificate available for <server name>`. -/
theorem getCertificate_eq_spec (st : CertState) (serverName : String) :
    getCertificate st serverName = getCertificateSpec st serverName ∧
    (∀ msg, getCertificate st serverName = .err msg →
      strContain msg ("no certificate available for " ++ serverName) = true) := by
  constructor
  · rw [getCertificate, getCertificateSpec]
    rcases st with ⟨ua, ha, mc⟩
    cases ua <;> cases ha <;> cases mc <;> simp
  · intro msg hmsg
    rw [getCertificate] at hmsg
    rcases st with ⟨ua, ha, mc⟩
    cases ua <;> cases ha <;> cases mc <;> simp_all <;>
      { subst hmsg
        have h := strContain_suffix "cert manager: "
          ("no certificate available for " ++ serverName)
        simpa [String.append_assoc] using h }

/-- C5 witness: with ACME off and an empty manual slot the handshake fails,
naming the SNI `example.com`. -/
theorem getCertificate_eq_spec_witness :
    getCertificate ⟨false, false, none⟩ "example.com" =
      .err "cert manager: no certificate available for example.com" ∧
    strContain "cert manager: no certificate available for example.com"
      ("no certificate available for " ++ "example.com") = true := by
  refine ⟨rfl, ?_⟩
  exact (getCertificate_eq_spec ⟨false, false, none⟩ "example.com").2 _ rfl

/-- C6 counterexample. From a recovery-mode state (`useACME` on,
`lastMod = 0`), a tick observing mtime `1` whose reload fails leaves
`lastMod` at `0`; the next tick observing the *same* mtime `1` — unchanged
since the failed attempt — retries the reload (`reloadFail` again) instead
of skipping, because the skip comparison is against the mtime of the last
successful load, not the last observation. -/
theorem watchTick_retry_counterexample :
    (watchTick ⟨true, true, 0, none, 30⟩ ⟨true, 1, none, 0⟩).2 = .reloadFail ∧
    (watchTick ⟨true, true, 0, none, 30⟩ ⟨true, 1, none, 0⟩).1 =
      ⟨true, true, 0, none, 30⟩ ∧
    (watchTick (watchTick ⟨true, true, 0, none, 30⟩ ⟨true, 1, none, 0⟩).1
      ⟨true, 1, none, 0⟩).2 = .reloadFail ∧
    WatchAction.reloadFail ≠ WatchAction.skip := by
  refine ⟨rfl, rfl, rfl, ?_⟩
  decide

/-- C6 (amended). On a recovery-mode tick (`useACME` set) with a successful
stat, the reload is skipped iff the observed mtime equals `lastMod`, the
mtime recorded at the last **successful** load (initialised from the stat at
watcher start): a failed reload leaves `lastMod` unchanged, and only a
successful reload at a new mtime moves it — so an unchanged file that keeps
failing is skipped only while its mtime still equals the last successful
one. -/
theorem watchTick_skip_iff (st : WatchState) (o : TickObs)
    (hstat : o.statOk = true) (hacme : st.useACME = true) :
    ((watchTick st o).2 = .skip ↔ o.mtime = st.lastMod) ∧
    (o.load = none → (watchTick st o).1.lastMod = st.lastMod) ∧
    (∀ c, o.load = some c → o.mtime ≠ st.lastMod →
      (watchTick st o).1.lastMod = o.mtime) := by
  refine ⟨?_, ?_, ?_⟩
  · by_cases hm : o.mtime = st.lastMod
    · simp [watchTick, hstat, hacme, hm]
    · rcases hl : o.load with _ | c <;>
        simp [watchTick, hstat, hacme, hm, hl, checkExpiration]
  · intro hl
    by_cases hm : o.mtime = st.lastMod <;>
      simp [watchTick, hstat, hacme, hm, hl]
  · intro c hl hm
    rcases st with ⟨ua, ae, lm, mc, th⟩
    simp only at hacme
    subst hacme
    simp only at hm
    simp [watchTick, hstat, hm, hl, checkExpiration]
    split <;> rfl

/-- C6 witness for the amended claim: in recovery with `lastMod = 7`, a tick
observing mtime `7` is skipped; a failing tick at mtime `9` keeps
`lastMod = 7`; a successful tick at mtime `9` moves `lastMod` to `9`. -/
theorem watchTick_skip_iff_witness :
    ((watchTick ⟨true, true, 7, none, 30⟩ ⟨true, 7, none, 0⟩).2 = .skip ↔ (7 : Nat) = 7) ∧
    (watchTick ⟨true, true, 7, none, 30⟩ ⟨true, 9, none, 0⟩).1.lastMod = 7 ∧
    (watchTick ⟨true, true, 7, none, 30⟩ ⟨true, 9, some ⟨100000⟩, 0⟩).1.lastMod = 9 := by
  have h7 := watchTick_skip_iff ⟨true, true, 7, none, 30⟩ ⟨true, 7, none, 0⟩ rfl rfl
  have h9 := watchTick_skip_iff ⟨true, true, 7, none, 30⟩ ⟨true, 9, none, 0⟩ rfl rfl
  have h9s := watchTick_skip_iff ⟨true, true, 7, none, 30⟩ ⟨true, 9, some ⟨100000⟩, 0⟩ rfl rfl
  exact ⟨h7.1, h9.2.1 rfl, h9s.2.2 ⟨100000⟩ rfl (by decide)⟩

/-- C7 counterexample. With no option touching the timeout, the server's
read-header timeout is the constructor's 5-second default, not 30 seconds:
`NewHttpService` sets `readTimeout = 5 s` and `Start`'s 30-second fallback
fires only for a non-positive stored value. -/
theorem defaultServerConfig_counterexample :
    (buildServerConfig newHttpService.readTimeout).readHeaderTimeout = 5 ∧
    (5 : Int) ≠ 30 := by
  exact ⟨rfl, by decide⟩

/-- C7 (amended). A `HttpService` with no timeout option set gets an HTTP
server with 1 MiB max header bytes, a **5-second** read-header timeout (the
`NewHttpService` default; the 30-second fallback applies only when the
stored timeout is non-positive, which no exported option produces),
unbounded body read and write timeouts, and a 60-second idle timeout. -/
theorem defaultServerConfig_values :
    buildServerConfig newHttpService.readTimeout =
      { maxHeaderBytes := 1048576, readHeaderTimeout := 5, readTimeout := 0,
        writeTimeout := 0, idleTimeout := 60 } ∧
    (∀ rt : Int, rt ≤ 0 → (buildServerConfig rt).readHeaderTimeout = 30) := by
  refine ⟨rfl, ?_⟩
  intro rt hrt
  simp [buildServerConfig, hrt]

/-- C7 witness: the fallback clause at the concrete non-positive value `0`. -/
theorem defaultServerConfig_values_witness :
    (buildServerConfig 0).readHeaderTimeout = 30 :=
  (defaultServerConfig_values).2 0 (by decide)

/-- C10. When HTTP/3 is enabled without a certificate manager and both binds
succeed, `HttpService.Start` stores the TCP listener and the UDP socket and
only then returns the `HTTP/3 requires TLS` error, closing neither socket —
whereas on a UDP bind failure it closes the TCP listener before returning. -/
theorem httpStart_http3_requires_tls (rt : Int) (tcpErr udpErr : String) :
    httpStart ⟨rt, false, true⟩ true tcpErr true udpErr =
      { listenerSet := true, udpConnSet := true, closedListener := false,
        closedUdp := false, result := some "HTTP/3 requires TLS, please call WithTLS()" } ∧
    strContain "HTTP/3 requires TLS, please call WithTLS()" "HTTP/3 requires TLS" = true ∧
    httpStart ⟨rt, false, true⟩ true tcpErr false udpErr =
      { listenerSet := true, udpConnSet := false, closedListener := true,
        closedUdp := false, result := some udpErr } := by
  refine ⟨rfl, ?_, rfl⟩
  decide

/-- C8. `Appx.HealthHandler` writes 200 `OK` iff every registered checker's
bounded `Check` returned nil; otherwise it writes 503 with a body containing
`[<name>] <error>` for the failing checker that won the `errgroup` race
(the first failure, in this sequential embedding), hence containing both
the checker's name and its error text. -/
theorem healthResponse_spec (checkers : List HChecker) :
    (healthResponse checkers = (200, "OK") ↔ ∀ c ∈ checkers, c.outcome = none) ∧
    (healthResponse checkers ≠ (200, "OK") →
      (healthResponse checkers).1 = 503 ∧
      ∃ c ∈ checkers, ∃ m, c.outcome = some m ∧
        strContain (healthResponse checkers).2 ("[" ++ c.name ++ "] " ++ m) = true ∧
        strContain (healthResponse checkers).2 c.name = true ∧
        strContain (healthResponse checkers).2 m = true) := by
  have hagg : (healthAggregate checkers = none ↔ ∀ c ∈ checkers, c.outcome = none) ∧
      (∀ e, healthAggregate checkers = some e →
        ∃ c ∈ checkers, ∃ m, c.outcome = some m ∧ e = "[" ++ c.name ++ "] " ++ m) := by
    induction checkers with
    | nil => exact ⟨by simp [healthAggregate], by simp [healthAggregate]⟩
    | cons c rest ih =>
      rcases hc : c.outcome with _ | m
      · refine ⟨?_, ?_⟩
        · rw [healthAggregate, hc]
          constructor
          · intro h d hd
            rcases List.mem_cons.mp hd with hdc | hdr
            · rw [hdc]; exact hc
            · exact ih.1.mp h d hdr
          · intro h
            exact ih.1.mpr fun d hd => h d (List.mem_cons_of_mem _ hd)
        · intro e he
          rw [healthAggregate, hc] at he
          obtain ⟨d, hd, m, hm, hem⟩ := ih.2 e he
          exact ⟨d, List.mem_cons_of_mem _ hd, m, hm, hem⟩
      · refine ⟨?_, ?_⟩
        · rw [healthAggregate, hc]
          constructor
          · intro h
            exact absurd h (by simp)
          · intro h
            exact absurd (h c (List.mem_cons_self c rest)) (by simp [hc])
        · intro e he
          rw [healthAggregate, hc] at he
          exact ⟨c, List.mem_cons_self c rest, m, hc, (Option.some_inj.mp he).symm⟩
  constructor
  · rcases ha : healthAggregate checkers with _ | e
    · simp only [healthResponse, ha]
      exact iff_of_true trivial (hagg.1.mp ha)
    · simp only [healthResponse, ha]
      refine iff_of_false (by simp) ?_
      intro h
      rw [hagg.1.mpr h] at ha
      exact absurd ha (by simp)
  · intro hne
    rcases ha : healthAggregate checkers with _ | e
    · exact absurd (by simp [healthResponse, ha]) hne
    · obtain ⟨c, hcmem, m, hm, hem⟩ := hagg.2 e ha
      subst hem
      refine ⟨by simp [healthResponse, ha], c, hcmem, m, hm, ?_, ?_, ?_⟩ <;>
        simp only [healthResponse, ha]
      · exact strContain_middle "Health check failed: " ("[" ++ c.name ++ "] " ++ m) "\n"
      · have h := strContain_middle ("Health check failed: " ++ "[") c.name
          ("] " ++ (m ++ "\n"))
        simpa [String.append_assoc] using h
      · have h := strContain_middle ("Health check failed: " ++ "[" ++ c.name ++ "] ") m "\n"
        simpa [String.append_assoc] using h

/-- C8 witness: the spec scenario — `db` healthy, `redis` refusing
connections — yields 503 with a body containing `redis` and
`connection refused`; two healthy checkers yield 200 `OK`. -/
theorem healthResponse_spec_witness :
    healthResponse [⟨"db", none⟩, ⟨"redis", some "connection refused"⟩] =
      (503, "Health check failed: [redis] connection refused\n") ∧
    strContain "Health check failed: [redis] connection refused\n" "redis" = true ∧
    strContain "Health check failed: [redis] connection refused\n" "connection refused" = true ∧
    healthResponse [⟨"db", none⟩, ⟨"redis", none⟩] = (200, "OK") := by
  have h := (healthResponse_spec [⟨"db", none⟩, ⟨"redis", some "connection refused"⟩]).2
    (by decide)
  refine ⟨rfl, ?_, ?_, rfl⟩ <;> decide

/-! ## Startup-loop lemmas -/

theorem startLoop_all_ok : ∀ (svcs : List SvcSpec) (i : Nat) (acc : List Nat),
    (∀ s ∈ svcs, s.startErr = none) →
    startLoop svcs i acc =
      ((List.range' i svcs.length).map Ev.startCall,
       Sum.inl (acc ++ List.range' i svcs.length))
  | [], i, acc, _ => by simp [startLoop]
  | svc :: rest, i, acc, h => by
    have hsvc : svc.startErr = none := h svc (List.mem_cons_self _ _)
    have ih := startLoop_all_ok rest (i + 1) (acc ++ [i])
      (fun s hs => h s (List.mem_cons_of_mem _ hs))
    simp only [startLoop, hsvc, ih, List.length_cons]
    rw [List.range'_succ i rest.length 1]
    simp [List.append_assoc]

theorem startLoop_first_fail : ∀ (good : List SvcSpec) (bad : SvcSpec)
    (rest : List SvcSpec) (i : Nat) (acc : List Nat) (e : String),
    (∀ s ∈ good, s.startErr = none) → bad.startErr = some e →
    startLoop (good ++ bad :: rest) i acc =
      ((List.range' i (good.length + 1)).map Ev.startCall ++
        (acc ++ List.range' i good.length).reverse.map
          (fun j => Ev.stopCall j (Ctx.rollback 5)),
       Sum.inr ("service " ++ bad.name ++ " start failed: " ++ e))
  | [], bad, rest, i, acc, e, _, hbad => by
    simp [startLoop, hbad, List.range']
  | g :: gs, bad, rest, i, acc, e, h, hbad => by
    have hg : g.startErr = none := h g (List.mem_cons_self _ _)
    have ih := startLoop_first_fail gs bad rest (i + 1) (acc ++ [i]) e
      (fun s hs => h s (List.mem_cons_of_mem _ hs)) hbad
    simp only [List.cons_append, startLoop, hg, List.length_cons, List.append_eq]
    rw [ih]
    rw [List.range'_succ i (gs.length + 1) 1, List.range'_succ i gs.length 1]
    simp [List.append_assoc]

/-- The j-indexed stop event of the rollback phase is injective in `j`. -/
theorem stopCall_rollback_injective :
    Function.Injective (fun j => Ev.stopCall j (Ctx.rollback 5)) := by
  intro a b hab
  simpa using hab

/-- C1. If every service before `bad` starts cleanly and `bad`'s start
fails, `Appx.Run` emits exactly the starts `0..k` (k = index of `bad`)
followed by one rollback stop per started service in reverse order under the
5-second rollback context, and returns `service <name> start failed: <err>`
— containing the original error — without reaching the signal wait or the
teardown phases; no stop is issued to `bad` or any later service. -/
theorem appxRun_rollback_on_failure (good : List SvcSpec) (bad : SvcSpec)
    (rest : List SvcSpec) (hooks : List (Option String)) (t : Nat) (cause : Cause)
    (e : String) (hgood : ∀ s ∈ good, s.startErr = none)
    (hbad : bad.startErr = some e) :
    appxRun (good ++ bad :: rest) hooks t cause =
      ((List.range (good.length + 1)).map Ev.startCall ++
        (List.range good.length).reverse.map (fun j => Ev.stopCall j (Ctx.rollback 5)),
       some ("service " ++ bad.name ++ " start failed: " ++ e)) ∧
    strContain ("service " ++ bad.name ++ " start failed: " ++ e) e = true ∧
    (∀ j, j < good.length →
      (appxRun (good ++ bad :: rest) hooks t cause).1.count
        (Ev.stopCall j (Ctx.rollback 5)) = 1) ∧
    (∀ j c, good.length ≤ j →
      Ev.stopCall j c ∉ (appxRun (good ++ bad :: rest) hooks t cause).1) ∧
    Ev.enterWait ∉ (appxRun (good ++ bad :: rest) hooks t cause).1 := by
  have hsl := startLoop_first_fail good bad rest 0 [] e hgood hbad
  have htrace : appxRun (good ++ bad :: rest) hooks t cause =
      ((List.range (good.length + 1)).map Ev.startCall ++
        (List.range good.length).reverse.map (fun j => Ev.stopCall j (Ctx.rollback 5)),
       some ("service " ++ bad.name ++ " start failed: " ++ e)) := by
    unfold appxRun
    rw [hsl]
    simp [List.range_eq_range']
  refine ⟨htrace, ?_, ?_, ?_, ?_⟩
  · exact strContain_suffix ("service " ++ bad.name ++ " start failed: ") e
  · intro j hj
    rw [htrace]
    simp only [List.count_append]
    have h1 : ((List.range (good.length + 1)).map Ev.startCall).count
        (Ev.stopCall j (Ctx.rollback 5)) = 0 := by
      rw [List.count_eq_zero]
      simp
    have hmem : Ev.stopCall j (Ctx.rollback 5) ∈
        (List.range good.length).reverse.map (fun j => Ev.stopCall j (Ctx.rollback 5)) := by
      simp only [List.mem_map, List.mem_reverse, List.mem_range]
      exact ⟨j, hj, rfl⟩
    have hnd : ((List.range good.length).reverse.map
        (fun j => Ev.stopCall j (Ctx.rollback 5))).Nodup :=
      (List.nodup_reverse.mpr (List.nodup_range _)).map stopCall_rollback_injective
    rw [h1, List.count_eq_one_of_mem hnd hmem]
  · intro j c hj
    rw [htrace]
    simp only [List.mem_append, List.mem_map, List.mem_reverse, List.mem_range]
    rintro (⟨a, _, hac⟩ | ⟨a, ha, hac⟩)
    · exact absurd hac (by simp)
    · obtain ⟨rfl, -⟩ : a = j ∧ Ctx.rollback 5 = c := by simpa using hac
      omega
  · rw [htrace]
    simp

/-- C1 witness: the spec's rollback scenario — `A` starts, `B` fails with
`port binding failed` — produces start(0), start(1), one rollback stop of
`A`, and the wrapped error. -/
theorem appxRun_rollback_on_failure_witness :
    appxRun ([⟨"A", none, none⟩] ++ ⟨"B", some "port binding failed", none⟩ :: [])
        [] 30 .signal =
      ([Ev.startCall 0, Ev.startCall 1, Ev.stopCall 0 (Ctx.rollback 5)],
       some "service B start failed: port binding failed") := by
  have h := (appxRun_rollback_on_failure [⟨"A", none, none⟩]
    ⟨"B", some "port binding failed", none⟩ [] [] 30 .signal "port binding failed"
    (by decide) rfl).1
  simpa [List.range] using h

/-! ## Teardown trace observations -/

/-- Observer: is this event a service `Stop` call? -/
def isStopCallEv : Ev → Bool
  | .stopCall _ _ => true
  | _ => false

/-- Observer: is this event a shutdown-hook invocation? -/
def isHookCallEv : Ev → Bool
  | .hookCall _ _ => true
  | _ => false

theorem filter_flatMap_single {α β : Type} (p : β → Bool) (g : α → List β)
    (f : α → β) (hg : ∀ a, (g a).filter p = [f a]) :
    ∀ l : List α, (l.flatMap g).filter p = l.map f
  | [] => by simp
  | a :: l => by
    simp [List.flatMap_cons, List.filter_append, hg a,
      filter_flatMap_single p g f hg l]

theorem stopPhase_filter (svcs : List SvcSpec) (t : Nat) :
    (stopPhase svcs t).filter isStopCallEv =
      (List.range svcs.length).reverse.map (fun i => Ev.stopCall i (Ctx.shutdown t)) := by
  refine filter_flatMap_single _ _ _ ?_ _
  intro i
  cases h1 : svcs[i]? with
  | none => simp [h1, isStopCallEv]
  | some svc =>
    cases h2 : svc.stopErr with
    | none => simp [h1, h2, isStopCallEv]
    | some m => simp [h1, h2, isStopCallEv]

theorem hookPhase_filter (hooks : List (Option String)) (t : Nat) :
    (hookPhase hooks t).filter isHookCallEv =
      (List.range hooks.length).map (fun j => Ev.hookCall j (Ctx.shutdown t)) := by
  refine filter_flatMap_single _ _ _ ?_ _
  intro j
  cases h1 : hooks[j]? with
  | none => simp [h1, isHookCallEv]
  | some o =>
    cases o with
    | none => simp [h1, isHookCallEv]
    | some m => simp [h1, isHookCallEv]

theorem stopCall_shutdown_injective (t : Nat) :
    Function.Injective (fun i => Ev.stopCall i (Ctx.shutdown t)) := by
  intro a b hab
  simpa using hab

theorem hookCall_shutdown_injective (t : Nat) :
    Function.Injective (fun j => Ev.hookCall j (Ctx.shutdown t)) := by
  intro a b hab
  simpa using hab

/-- C3. When every start succeeds, `Appx.Run` waits for its shutdown cause,
then emits the teardown trace: one `Stop` per service, in reverse
registration order, all under the configured shutdown context, followed by
one call per shutdown hook under the same context; each occurs exactly
once, and the return value is determined solely by the cause (`none` on a
signal, the reported error on a fatal report), never by stop or hook
errors. -/
theorem appxRun_clean_shutdown (svcs : List SvcSpec) (hooks : List (Option String))
    (t : Nat) (cause : Cause) (h : ∀ s ∈ svcs, s.startErr = none) :
    appxRun svcs hooks t cause =
      ((List.range svcs.length).map Ev.startCall ++ [Ev.enterWait] ++
        stopPhase svcs t ++ hookPhase hooks t,
       match cause with | .signal => none | .fatal e => some e) ∧
    (stopPhase svcs t).filter isStopCallEv =
      (List.range svcs.length).reverse.map (fun i => Ev.stopCall i (Ctx.shutdown t)) ∧
    (hookPhase hooks t).filter isHookCallEv =
      (List.range hooks.length).map (fun j => Ev.hookCall j (Ctx.shutdown t)) ∧
    (∀ i, i < svcs.length →
      (stopPhase svcs t).count (Ev.stopCall i (Ctx.shutdown t)) = 1) ∧
    (∀ j, j < hooks.length →
      (hookPhase hooks t).count (Ev.hookCall j (Ctx.shutdown t)) = 1) ∧
    (appxRun svcs hooks t cause).2 =
      (match cause with | .signal => none | .fatal e => some e) := by
  have hsl := startLoop_all_ok svcs 0 [] h
  have htrace : appxRun svcs hooks t cause =
      ((List.range svcs.length).map Ev.startCall ++ [Ev.enterWait] ++
        stopPhase svcs t ++ hookPhase hooks t,
       match cause with | .signal => none | .fatal e => some e) := by
    unfold appxRun
    rw [hsl]
    simp [List.range_eq_range', List.append_assoc]
  refine ⟨htrace, stopPhase_filter svcs t, hookPhase_filter hooks t, ?_, ?_, ?_⟩
  · intro i hi
    have hc : (stopPhase svcs t).count (Ev.stopCall i (Ctx.shutdown t)) =
        ((stopPhase svcs t).filter isStopCallEv).count (Ev.stopCall i (Ctx.shutdown t)) :=
      (List.count_filter (by rfl)).symm
    rw [hc, stopPhase_filter svcs t]
    have hmem : Ev.stopCall i (Ctx.shutdown t) ∈
        (List.range svcs.length).reverse.map (fun i => Ev.stopCall i (Ctx.shutdown t)) := by
      simp only [List.mem_map, List.mem_reverse, List.mem_range]
      exact ⟨i, hi, rfl⟩
    have hnd : ((List.range svcs.length).reverse.map
        (fun i => Ev.stopCall i (Ctx.shutdown t))).Nodup :=
      (List.nodup_reverse.mpr (List.nodup_range _)).map (stopCall_shutdown_injective t)
    exact List.count_eq_one_of_mem hnd hmem
  · intro j hj
    have hc : (hookPhase hooks t).count (Ev.hookCall j (Ctx.shutdown t)) =
        ((hookPhase hooks t).filter isHookCallEv).count (Ev.hookCall j (Ctx.shutdown t)) :=
      (List.count_filter (by rfl)).symm
    rw [hc, hookPhase_filter hooks t]
    have hmem : Ev.hookCall j (Ctx.shutdown t) ∈
        (List.range hooks.length).map (fun j => Ev.hookCall j (Ctx.shutdown t)) := by
      simp only [List.mem_map, List.mem_range]
      exact ⟨j, hj, rfl⟩
    have hnd : ((List.range hooks.length).map
        (fun j => Ev.hookCall j (Ctx.shutdown t))).Nodup :=
      (List.nodup_range _).map (hookCall_shutdown_injective t)
    exact List.count_eq_one_of_mem hnd hmem
  · rw [htrace]

/-- C3 witness: two healthy services (the second's stop failing) and one
failing hook, fatal cause `boom` at the default 30-second deadline — the
trace stops service 1 then 0, logs the stop error, runs the hook, logs its
error, and `Run` returns `boom`. -/
theorem appxRun_clean_shutdown_witness :
    appxRun [⟨"A", none, none⟩, ⟨"B", none, some "stop failed"⟩]
        [some "hook failed"] defaultShutdownTimeout (.fatal "boom") =
      ([Ev.startCall 0, Ev.startCall 1, Ev.enterWait,
        Ev.stopCall 1 (Ctx.shutdown 30), Ev.logStopErr 1 "stop failed",
        Ev.stopCall 0 (Ctx.shutdown 30),
        Ev.hookCall 0 (Ctx.shutdown 30), Ev.logHookErr 0 "hook failed"],
       some "boom") := by
  have h := (appxRun_clean_shutdown [⟨"A", none, none⟩, ⟨"B", none, some "stop failed"⟩]
    [some "hook failed"] defaultShutdownTimeout (.fatal "boom") (by decide)).1
  rw [h]
  rfl

/-- C2. `Appx.notifyFatalError` is a total (never-blocking) function whose
three exits match the source: during shutdown it only logs; otherwise it
fills the empty capacity-1 channel; otherwise it logs a secondary error.
Once the channel holds an error, no later reporter call or shutdown flip
changes it, so at most one reported error is ever received from the channel
(and, by `appxRun` on a `Cause.fatal`, becomes `Run`'s return value). -/
theorem notifyFatalError_at_most_one_cause :
    (∀ st e, st.inShutdown = true →
      notifyFatalError st e = (st, .loggedInShutdown)) ∧
    (∀ st e, st.inShutdown = false → st.fatalChan = none →
      notifyFatalError st e = ({ st with fatalChan := some e }, .sent)) ∧
    (∀ st e x, st.inShutdown = false → st.fatalChan = some x →
      notifyFatalError st e = (st, .loggedChanFull)) ∧
    (∀ st evs e, st.fatalChan = some e → (fatalRun st evs).fatalChan = some e) := by
  have hstep : ∀ st ev e, st.fatalChan = some e →
      (fatalStep st ev).fatalChan = some e := by
    intro st ev e he
    cases ev with
    | notify x =>
      cases hsd : st.inShutdown <;> simp [fatalStep, notifyFatalError, hsd, he]
    | setShutdown => simp [fatalStep, he]
  refine ⟨?_, ?_, ?_, ?_⟩
  · intro st e hsd
    simp [notifyFatalError, hsd]
  · intro st e hsd hch
    simp [notifyFatalError, hsd, hch]
  · intro st e x hsd hch
    simp [notifyFatalError, hsd, hch]
  · intro st evs
    induction evs generalizing st with
    | nil => intro e he; exact he
    | cons ev rest ih => intro e he; exact ih (fatalStep st ev) e (hstep st ev e he)

/-- C2 witness: the spec's concurrent-fatal scenario — `error from A` wins
the empty channel, `error from B` is logged as secondary, a report during
shutdown only logs, and the channel still holds `error from A` after both
later events. -/
theorem notifyFatalError_at_most_one_cause_witness :
    notifyFatalError ⟨false, none⟩ "error from A" =
      (⟨false, some "error from A"⟩, .sent) ∧
    notifyFatalError ⟨false, some "error from A"⟩ "error from B" =
      (⟨false, some "error from A"⟩, .loggedChanFull) ∧
    notifyFatalError ⟨true, none⟩ "late" = (⟨true, none⟩, .loggedInShutdown) ∧
    (fatalRun ⟨false, some "error from A"⟩
      [.notify "error from B", .setShutdown, .notify "error from C"]).fatalChan =
      some "error from A" := by
  refine ⟨?_, ?_, ?_, ?_⟩
  · exact notifyFatalError_at_most_one_cause.2.1 ⟨false, none⟩ "error from A" rfl rfl
  · exact notifyFatalError_at_most_one_cause.2.2.1 ⟨false, some "error from A"⟩
      "error from B" "error from A" rfl rfl
  · exact notifyFatalError_at_most_one_cause.1 ⟨true, none⟩ "late" rfl
  · exact notifyFatalError_at_most_one_cause.2.2.2 ⟨false, some "error from A"⟩
      [.notify "error from B", .setShutdown, .notify "error from C"] "error from A" rfl

end Appx
